import Mathlib

set_option maxRecDepth 20000

/-!
Verification of the krkr-tts server-side coordination engine
(`src/server.rs`, `src/common.rs`, `src/client.rs`) against its design
specification.  Rust functions are translated into executable Lean
definitions: machine integers become `Nat` with explicit `% 2 ^ w`
masking, the filesystem cache becomes an explicit list of filenames,
the tokio `VoiceManager` registry becomes an association list, and the
external TTS provider becomes a function parameter.
-/

/-! ## Byte-level primitives: UTF-8 encoding and the MD5 digest

`md5::compute(text.as_bytes())` in `common.rs` hashes the UTF-8 bytes of
the request text.  The digest is implemented here in full so that cache
filenames and the byte-sum identifiers derived from them are concretely
computable.
-/

/-- Standard UTF-8 encoding of one scalar value (what Rust's `str::as_bytes`
exposes per character). -/
def utf8EncodeChar (c : Char) : List Nat :=
  let n := c.toNat
  if n < 128 then [n]
  else if n < 2048 then [192 + n / 64, 128 + n % 64]
  else if n < 65536 then [224 + n / 4096, 128 + (n / 64) % 64, 128 + n % 64]
  else [240 + n / 262144, 128 + (n / 4096) % 64, 128 + (n / 64) % 64, 128 + n % 64]

/-- The UTF-8 byte sequence of a string, as `Nat`s below 256. -/
def utf8Bytes (s : String) : List Nat :=
  (s.toList.map utf8EncodeChar).flatten

/-- Truncation to 32 bits. -/
def mask32 (n : Nat) : Nat := n % 4294967296

/-- Bitwise complement on 32-bit values (valid for inputs below `2 ^ 32`). -/
def not32 (n : Nat) : Nat := 4294967295 - mask32 n

/-- 32-bit left rotation.  The shifted-out high bits and the wrapped-in low
bits occupy disjoint bit positions, so the bitwise or is a plain sum. -/
def rotl32 (x c : Nat) : Nat := mask32 (x * 2 ^ c) + x / 2 ^ (32 - c)

/-- The 64 MD5 sine-derived round constants. -/
def md5K : List Nat :=
  [0xd76aa478, 0xe8c7b756, 0x242070db, 0xc1bdceee,
   0xf57c0faf, 0x4787c62a, 0xa8304613, 0xfd469501,
   0x698098d8, 0x8b44f7af, 0xffff5bb1, 0x895cd7be,
   0x6b901122, 0xfd987193, 0xa679438e, 0x49b40821,
   0xf61e2562, 0xc040b340, 0x265e5a51, 0xe9b6c7aa,
   0xd62f105d, 0x02441453, 0xd8a1e681, 0xe7d3fbc8,
   0x21e1cde6, 0xc33707d6, 0xf4d50d87, 0x455a14ed,
   0xa9e3e905, 0xfcefa3f8, 0x676f02d9, 0x8d2a4c8a,
   0xfffa3942, 0x8771f681, 0x6d9d6122, 0xfde5380c,
   0xa4beea44, 0x4bdecfa9, 0xf6bb4b60, 0xbebfbc70,
   0x289b7ec6, 0xeaa127fa, 0xd4ef3085, 0x04881d05,
   0xd9d4d039, 0xe6db99e5, 0x1fa27cf8, 0xc4ac5665,
   0xf4292244, 0x432aff97, 0xab9423a7, 0xfc93a039,
   0x655b59c3, 0x8f0ccc92, 0xffeff47d, 0x85845dd1,
   0x6fa87e4f, 0xfe2ce6e0, 0xa3014314, 0x4e0811a1,
   0xf7537e82, 0xbd3af235, 0x2ad7d2bb, 0xeb86d391]

/-- The 64 MD5 per-round left-rotation amounts. -/
def md5S : List Nat :=
  [7, 12, 17, 22, 7, 12, 17, 22, 7, 12, 17, 22, 7, 12, 17, 22,
   5, 9, 14, 20, 5, 9, 14, 20, 5, 9, 14, 20, 5, 9, 14, 20,
   4, 11, 16, 23, 4, 11, 16, 23, 4, 11, 16, 23, 4, 11, 16, 23,
   6, 10, 15, 21, 6, 10, 15, 21, 6, 10, 15, 21, 6, 10, 15, 21]

/-- The MD5 nonlinear round function, selected by round index. -/
def md5F (i b c d : Nat) : Nat :=
  if i < 16 then (b &&& c) ||| (not32 b &&& d)
  else if i < 32 then (d &&& b) ||| (not32 d &&& c)
  else if i < 48 then b ^^^ c ^^^ d
  else c ^^^ (b ||| not32 d)

/-- The MD5 message-word schedule. -/
def md5G (i : Nat) : Nat :=
  if i < 16 then i
  else if i < 32 then (5 * i + 1) % 16
  else if i < 48 then (3 * i + 5) % 16
  else (7 * i) % 16

/-- Little-endian 32-bit word `j` of a 64-byte chunk. -/
def md5Word (chunk : List Nat) (j : Nat) : Nat :=
  chunk.getD (4 * j) 0 + 256 * chunk.getD (4 * j + 1) 0 +
    65536 * chunk.getD (4 * j + 2) 0 + 16777216 * chunk.getD (4 * j + 3) 0

/-- One MD5 round applied to the running `(a, b, c, d)` state. -/
def md5Round (chunk : List Nat) (st : Nat × Nat × Nat × Nat) (i : Nat) :
    Nat × Nat × Nat × Nat :=
  let a := st.1
  let b := st.2.1
  let c := st.2.2.1
  let d := st.2.2.2
  let f := mask32 (md5F i b c d + a + md5K.getD i 0 + md5Word chunk (md5G i))
  (d, mask32 (b + rotl32 f (md5S.getD i 0)), b, c)

/-- Compression of one 64-byte chunk into the MD5 state. -/
def md5Compress (st : Nat × Nat × Nat × Nat) (chunk : List Nat) :
    Nat × Nat × Nat × Nat :=
  let r := (List.range 64).foldl (md5Round chunk) st
  (mask32 (st.1 + r.1), mask32 (st.2.1 + r.2.1),
   mask32 (st.2.2.1 + r.2.2.1), mask32 (st.2.2.2 + r.2.2.2))

/-- MD5 padding: a `0x80` byte, zeros to 56 mod 64, then the 64-bit
little-endian bit length. -/
def md5Pad (msg : List Nat) : List Nat :=
  let len := msg.length
  let padLen := (119 - len % 64) % 64
  let bitLen := (8 * len) % 2 ^ 64
  msg ++ [128] ++ List.replicate padLen 0 ++
    (List.range 8).map (fun i => bitLen / 2 ^ (8 * i) % 256)

/-- Fold the compression function over successive 64-byte chunks (the fuel
bounds the number of chunks; the padded length itself is always enough). -/
def md5Blocks : Nat → (Nat × Nat × Nat × Nat) → List Nat → Nat × Nat × Nat × Nat
  | 0, st, _ => st
  | _, st, [] => st
  | fuel + 1, st, rest => md5Blocks fuel (md5Compress st (rest.take 64)) (rest.drop 64)

/-- The 16-byte MD5 digest of a byte sequence. -/
def md5Digest (msg : List Nat) : List Nat :=
  let padded := md5Pad msg
  let r := md5Blocks padded.length (0x67452301, 0xefcdab89, 0x98badcfe, 0x10325476) padded
  ([r.1, r.2.1, r.2.2.1, r.2.2.2].map
    (fun w => (List.range 4).map (fun i => w / 2 ^ (8 * i) % 256))).flatten

/-- Lowercase hexadecimal digit. -/
def hexDigitChar (n : Nat) : Char :=
  if n < 10 then Char.ofNat (48 + n) else Char.ofNat (87 + n)

/-- Two lowercase hex characters of a byte, as produced by Rust's
`format` with the `x` spec on an MD5 digest. -/
def byteToHex (b : Nat) : List Char := [hexDigitChar (b / 16), hexDigitChar (b % 16)]

/-- Lowercase hexadecimal rendering of the MD5 digest of a byte sequence. -/
def md5Hex (msg : List Nat) : String :=
  String.mk ((md5Digest msg).map byteToHex).flatten

/-- The Unicode White_Space property, the set trimmed by Rust's
`str::trim`. -/
def isRustWhitespace (c : Char) : Bool :=
  c.toNat ∈ [9, 10, 11, 12, 13, 32, 133, 160, 5760,
    8192, 8193, 8194, 8195, 8196, 8197, 8198, 8199, 8200, 8201, 8202,
    8232, 8233, 8239, 8287, 12288]

/-- Executable model of Rust's `str::trim`: drop leading and trailing
whitespace characters. -/
def rustTrim (s : String) : String :=
  String.mk (((s.toList.dropWhile isRustWhitespace).reverse.dropWhile
    isRustWhitespace).reverse)

/-! ## Cache filenames (`common.rs` line 212 and `client.rs` lines 85 and 86) -/

/-- Embeds `generate_cache_filename` from `common.rs`: the lowercase hex MD5
digest of the text's bytes followed by the fixed audio extension. -/
def generate_cache_filename (text : String) : String :=
  let text_hash := md5Hex (utf8Bytes text)
  text_hash ++ ".wav"

/-- Embeds the client's inline cache-filename computation (`client.rs`
lines 85 and 86): hash the argument text with MD5, render lowercase hex,
append the extension. -/
def clientVoiceFilename (text : String) : String :=
  let text_hash := md5Hex (utf8Bytes text)
  text_hash ++ ".wav"

/-! ## The in-flight registry (`VoiceManager`, `server.rs` lines 66 to 104)

`in_progress: HashMap<String, HashSet<usize>>` becomes an association
list from scope strings to duplicate-free lists of identifiers.  The
hash-set insert is modelled by a membership-guarded cons and the
hash-set remove by `List.erase`, which agree with set semantics on
duplicate-free lists.
-/

/-- The in-flight registry: scope string to set of in-progress identifiers. -/
abbrev Registry := List (String × List Nat)

/-- Membership-guarded insertion, modelling `HashSet::insert`. -/
def setInsert (s : List Nat) (i : Nat) : List Nat :=
  if i ∈ s then s else i :: s

/-- Embeds `VoiceManager::is_generating` (`server.rs` lines 83 to 89):
look the scope up, and test membership in its set, defaulting to false. -/
def is_generating (m : Registry) (scope : String) (i : Nat) : Bool :=
  match m with
  | [] => false
  | (k, s) :: rest => if k = scope then decide (i ∈ s) else is_generating rest scope i

/-- Embeds `VoiceManager::mark_in_progress` (`server.rs` lines 91 to 97):
`entry(scope).or_insert_with(new).insert(i)`. -/
def mark_in_progress (m : Registry) (scope : String) (i : Nat) : Registry :=
  match m with
  | [] => [(scope, setInsert [] i)]
  | (k, s) :: rest =>
    if k = scope then (k, setInsert s i) :: rest
    else (k, s) :: mark_in_progress rest scope i

/-- Embeds `VoiceManager::mark_completed` (`server.rs` lines 99 to 104):
`get_mut(scope)` then `remove(i)`; a missing scope is left untouched. -/
def mark_completed (m : Registry) (scope : String) (i : Nat) : Registry :=
  match m with
  | [] => []
  | (k, s) :: rest =>
    if k = scope then (k, s.erase i) :: rest
    else (k, s) :: mark_completed rest scope i

/-- Well-formedness of the registry as an image of `HashSet`s: every
per-scope set is duplicate-free. -/
def RegWF (m : Registry) : Prop := ∀ p ∈ m, p.2.Nodup

instance : DecidablePred RegWF := fun m =>
  inferInstanceAs (Decidable (∀ p ∈ m, p.2.Nodup))

/-! ## The synthesis capability boundary

`TtsProvider::generate_speech(text, output_path)` either succeeds
(artifact written at the output path), fails before creating the file
(for example a non-success API status), or fails mid-stream after the
output file was already created.
-/

/-- Outcome of one call to the synthesis capability. -/
inductive SynthResult where
  | ok : SynthResult
  | errNoFile : SynthResult
  | errFile : SynthResult
deriving DecidableEq

/-! ## The prefetch walk (`prefetch_voices`, `server.rs` lines 233 to 332)

The filesystem cache directory becomes the list of filenames it
contains, and each `log_message` call in the loop body becomes one
event, so a run records which branch each visited line took.
-/

/-- One per-line event of the prefetch walk, mirroring the walk's log
calls: skip of a blank line, skip of an already-cached line, skip of an
in-flight line, successful generation, failed generation. -/
inductive PEv where
  | skipEmpty : Nat → PEv
  | skipExisting : Nat → PEv
  | skipInProgress : Nat → PEv
  | genOk : Nat → PEv
  | genFail : Nat → PEv
deriving DecidableEq

/-- The line number an event is about. -/
def PEv.line : PEv → Nat
  | .skipEmpty n => n
  | .skipExisting n => n
  | .skipInProgress n => n
  | .genOk n => n
  | .genFail n => n

/-- Whether an event records a successful generation. -/
def PEv.isGenOk : PEv → Bool
  | .genOk _ => true
  | _ => false

/-- Whether an event records a synthesis attempt (successful or not). -/
def PEv.isGen : PEv → Bool
  | .genOk _ => true
  | .genFail _ => true
  | _ => false

/-- Why a visited line produced its event, stated against the walk's
starting cache contents and registry (the walk's own effects on the
registry are observation-preserving, and its cache only grows, so these
conditions are the visit-time ones expressed over the initial state;
`d` is the walk's whole event list, used to account for artifacts the
walk itself created earlier for a duplicate line).
A blank skip requires a blank trimmed line; an already-cached skip
requires a non-blank line whose artifact was present initially or was
generated by an earlier visited line with the same filename; an
in-flight skip requires a non-blank, not-cached line marked in the
registry; a generation event requires a non-blank, not-cached,
not-in-flight line, successful exactly when the provider succeeds. -/
def PEvClass (provider : String → SynthResult) (tl : List String) (scope : String)
    (cache : List String) (reg : Registry) (d : List PEv) : PEv → Prop
  | .skipEmpty n => rustTrim (tl.getD n "") = ""
  | .skipExisting n => rustTrim (tl.getD n "") ≠ "" ∧
      (generate_cache_filename (tl.getD n "") ∈ cache ∨
        ∃ m, (PEv.genOk m ∈ d ∨ PEv.genFail m ∈ d) ∧ m < n ∧
          generate_cache_filename (tl.getD m "") = generate_cache_filename (tl.getD n ""))
  | .skipInProgress n => rustTrim (tl.getD n "") ≠ "" ∧
      generate_cache_filename (tl.getD n "") ∉ cache ∧
      is_generating reg scope n = true
  | .genOk n => rustTrim (tl.getD n "") ≠ "" ∧
      generate_cache_filename (tl.getD n "") ∉ cache ∧
      is_generating reg scope n = false ∧
      provider (tl.getD n "") = SynthResult.ok
  | .genFail n => rustTrim (tl.getD n "") ≠ "" ∧
      generate_cache_filename (tl.getD n "") ∉ cache ∧
      is_generating reg scope n = false ∧
      provider (tl.getD n "") ≠ SynthResult.ok

/-- Mutable state threaded through the prefetch walk: the cache
directory contents, the in-flight registry, and the event log. -/
structure PrefetchState where
  cache : List String
  reg : Registry
  log : List PEv
deriving DecidableEq

/-- The loop body of `prefetch_voices` (`server.rs` lines 264 to 328),
with explicit fuel (one unit per loop iteration; the list length always
suffices because the line index advances every iteration).  Returns the
final line index, the success count, and the final state. -/
def prefetchGo (provider : String → SynthResult) (textList : List String)
    (scope : String) (prefetchCount : Nat) :
    Nat → Nat → Nat → PrefetchState → Nat × Nat × PrefetchState
  | 0, currentLine, count, st => (currentLine, count, st)
  | fuel + 1, currentLine, count, st =>
    if currentLine < textList.length ∧ count < prefetchCount then
      let text := textList.getD currentLine ""
      if rustTrim text = "" then
        prefetchGo provider textList scope prefetchCount fuel (currentLine + 1) count
          { st with log := st.log ++ [.skipEmpty currentLine] }
      else
        let voice_filename := generate_cache_filename text
        if voice_filename ∈ st.cache then
          prefetchGo provider textList scope prefetchCount fuel (currentLine + 1) count
            { st with log := st.log ++ [.skipExisting currentLine] }
        else if is_generating st.reg scope currentLine then
          prefetchGo provider textList scope prefetchCount fuel (currentLine + 1) count
            { st with log := st.log ++ [.skipInProgress currentLine] }
        else
          let reg1 := mark_in_progress st.reg scope currentLine
          match provider text with
          | .ok =>
            prefetchGo provider textList scope prefetchCount fuel (currentLine + 1) (count + 1)
              { cache := voice_filename :: st.cache,
                reg := mark_completed reg1 scope currentLine,
                log := st.log ++ [.genOk currentLine] }
          | .errNoFile =>
            prefetchGo provider textList scope prefetchCount fuel (currentLine + 1) count
              { cache := st.cache,
                reg := mark_completed reg1 scope currentLine,
                log := st.log ++ [.genFail currentLine] }
          | .errFile =>
            prefetchGo provider textList scope prefetchCount fuel (currentLine + 1) count
              { cache := voice_filename :: st.cache,
                reg := mark_completed reg1 scope currentLine,
                log := st.log ++ [.genFail currentLine] }
    else (currentLine, count, st)

/-- Embeds `prefetch_voices`: walk from `startPos` with `count = 0` until
`prefetchCount` successes or list end.  The memoized text list and the
text-list-path scope string are passed in directly. -/
def prefetch_voices (provider : String → SynthResult) (textList : List String)
    (scope : String) (prefetchCount startPos : Nat) (st : PrefetchState) :
    Nat × Nat × PrefetchState :=
  prefetchGo provider textList scope prefetchCount textList.length startPos 0 st

/-! ## Locating the current text (`try_prefetch_voices`, `server.rs`
lines 540 to 589) -/

/-- The scan loop of `try_prefetch_voices` (`server.rs` lines 562 to 568):
`current_position` starts at the list length and the loop breaks at the
first line whose trimmed content equals the target. -/
def findPosAux (currentText : String) : List String → Nat → Nat
  | [], i => i
  | t :: rest, i => if rustTrim t = currentText then i else findPosAux currentText rest (i + 1)

/-- Position of the first line whose trimmed content equals
`currentText`, or the list length when no line matches. -/
def findCurrentPosition (textList : List String) (currentText : String) : Nat :=
  findPosAux currentText textList 0

/-- Result of `try_prefetch_voices`: the start position when a walk was
performed, the walk's success count, and the final state. -/
structure TryPrefetchResult where
  performed : Option Nat
  count : Nat
  state : PrefetchState
deriving DecidableEq

/-- Embeds `try_prefetch_voices`: return early when the text-list file
does not exist; otherwise scan for the current text, set the start
position to the match index plus one, and walk only when that position
is still inside the list. -/
def try_prefetch_voices (provider : String → SynthResult) (textListExists : Bool)
    (textList : List String) (scope : String) (prefetch_count : Nat)
    (current_text : String) (st : PrefetchState) : TryPrefetchResult :=
  if !textListExists then ⟨none, 0, st⟩
  else
    let current_position := findCurrentPosition textList current_text
    let start_position := current_position + 1
    if start_position < textList.length then
      let r := prefetch_voices provider textList scope prefetch_count start_position st
      ⟨some start_position, r.2.1, r.2.2⟩
    else ⟨none, 0, st⟩

/-! ## Direct request processing (`process_voice_request`, `server.rs`
lines 420 to 537) -/

/-- The fields of `GeneralConfig` consumed by the processing core. -/
structure SrvConfig where
  cache_dir : String
  prefetch_count : Nat
  text_list_path : String
deriving DecidableEq

/-- Numeric identifier of a direct request (`server.rs` line 482): the
sum of the byte values of the cache filename. -/
def voiceId (voice_filename : String) : Nat :=
  ((utf8Bytes voice_filename).map fun b => b).sum

/-- Arguments of a spawned background prefetch task
(text-list path, cache dir, prefetch count, current text). -/
structure PrefetchSpawn where
  text_list_path : String
  cache_dir : String
  prefetch_count : Nat
  current_text : String
deriving DecidableEq

instance : DecidableEq (Except String Unit)
  | .ok (), .ok () => isTrue rfl
  | .error s, .error t =>
    if h : s = t then isTrue (h ▸ rfl) else isFalse (fun hh => h (by injection hh))
  | .ok _, .error _ => isFalse (fun hh => Except.noConfusion hh)
  | .error _, .ok _ => isFalse (fun hh => Except.noConfusion hh)

/-- Result of `process_voice_request`: outcome, cache contents of the
resolved cache directory, registry, the texts sent to the synthesis
capability, the key the miss path registered in-flight (if any), and a
spawned prefetch task (if any).  The spawned task is recorded, not run:
in the source it is a fire-and-forget `spawn`. -/
structure ProcResult where
  result : Except String Unit
  cache : List String
  reg : Registry
  calls : List String
  marked : Option (String × Nat)
  prefetchSpawned : Option PrefetchSpawn
deriving DecidableEq

/-- Embeds `process_voice_request`.  `cache` lists the filenames present
in the resolved cache directory; `textListExists` is the filesystem
existence of the configured text list.  Control flow follows the source:
resolve the cache directory (request field, then non-empty config field,
else error), check the cache, and on a miss mark the byte-sum identifier
in-flight under the cache-directory scope, call the provider, and mark
it completed on success and on failure alike. -/
def process_voice_request (provider : String → SynthResult)
    (general_config : SrvConfig) (text : String) (cache_dir : Option String)
    (voice_filename : String) (textListExists : Bool)
    (reg : Registry) (cache : List String) : ProcResult :=
  let cdirOpt : Option String :=
    match cache_dir with
    | some dir => some dir
    | none => if general_config.cache_dir ≠ "" then some general_config.cache_dir else none
  match cdirOpt with
  | none => ⟨.error "No cache directory specified", cache, reg, [], none, none⟩
  | some cdir =>
    let spawnPf : Option PrefetchSpawn :=
      if general_config.text_list_path ≠ "" && textListExists then
        some ⟨general_config.text_list_path, cdir, general_config.prefetch_count, text⟩
      else none
    if voice_filename ∈ cache then
      ⟨.ok (), cache, reg, [], none, spawnPf⟩
    else
      let cache_path_str := cdir
      let voice_id := voiceId voice_filename
      let reg1 := mark_in_progress reg cache_path_str voice_id
      match provider text with
      | .ok =>
        ⟨.ok (), voice_filename :: cache, mark_completed reg1 cache_path_str voice_id,
          [text], some (cache_path_str, voice_id), spawnPf⟩
      | .errNoFile =>
        ⟨.error "synthesis failed", cache, mark_completed reg1 cache_path_str voice_id,
          [text], some (cache_path_str, voice_id), none⟩
      | .errFile =>
        ⟨.error "synthesis failed", voice_filename :: cache,
          mark_completed reg1 cache_path_str voice_id,
          [text], some (cache_path_str, voice_id), none⟩

/-! ## The connection handler (`handle_client`, `server.rs` lines 334
to 418) -/

/-- The fixed read timeout used for both the length prefix and the body
(`Duration::from_secs(5)` at `server.rs` lines 346 and 368). -/
def readTimeoutSecs : Nat := 5

/-- Outcome of one timed read: the data, a timeout, or a read error
(which covers a short read, since `read_exact` fails on early EOF). -/
inductive ReadResult (α : Type) where
  | ok : α → ReadResult α
  | timeout : ReadResult α
  | ioError : ReadResult α
deriving DecidableEq

/-- A decoded `VoiceRequest` (`common.rs` lines 194 to 201). -/
structure VoiceRequestM where
  text : String
  output_path : String
  cache_dir : Option String
  config_path : String
deriving DecidableEq

/-- `u32::from_le_bytes` on four bytes. -/
def u32FromLeBytes (b : Nat × Nat × Nat × Nat) : Nat :=
  b.1 % 256 + 256 * (b.2.1 % 256) + 65536 * (b.2.2.1 % 256) + 16777216 * (b.2.2.2 % 256)

/-- Result of `handle_client`: outcome, every byte sequence written back
to the client socket (the source never writes one), and the processing
task spawned after a successful decode (if any), paired with the cache
filename the handler computed for it. -/
structure HandleResult where
  result : Except String Unit
  responses : List (List Nat)
  spawned : Option (VoiceRequestM × String)
deriving DecidableEq

/-- Embeds `handle_client`.  The two timed socket reads and the JSON
decoder are abstracted as parameters: `lenRead` is the 4-byte length
read, `bodyRead n` the body read of `n` bytes, `decode` the serde
decoder, and `configLoaded` the outcome of `load_or_get_config`.  On any
read timeout, read error, or decode failure the handler returns an
error having written nothing and spawned nothing; on success it computes
the cache filename and spawns `process_voice_request`, again without
writing a response. -/
def handle_client (lenRead : ReadResult (Nat × Nat × Nat × Nat))
    (bodyRead : Nat → ReadResult (List Nat))
    (decode : List Nat → Option VoiceRequestM)
    (configLoaded : Bool) : HandleResult :=
  match lenRead with
  | .timeout => ⟨.error "Timeout while reading request length", [], none⟩
  | .ioError => ⟨.error "Failed to read request length", [], none⟩
  | .ok len_bytes =>
    let len := u32FromLeBytes len_bytes
    match bodyRead len with
    | .timeout => ⟨.error "Timeout while reading request data", [], none⟩
    | .ioError => ⟨.error "Failed to read request data", [], none⟩
    | .ok request_data =>
      match decode request_data with
      | none => ⟨.error "Failed to deserialize request", [], none⟩
      | some request =>
        if !configLoaded then ⟨.error "Failed to load configuration", [], none⟩
        else
          let voice_filename := generate_cache_filename request.text
          ⟨.ok (), [], some (request, voice_filename)⟩

/-! ## Admission control as an event trace (`server.rs` lines 335 to 418,
620 to 721)

Each task the server runs is flattened into the ordered list of steps it
performs, with the semaphore operations and the synthesis call marked
explicitly; a small scheduler interleaves tasks and tracks how many
syntheses are active at once.  The semaphore permit in `handle_client`
(`let _permit = semaphore.acquire().await?` at line 393) is a guard
dropped when the function returns, which is right after the
`tokio::spawn` of `process_voice_request`.
-/

/-- One step of a server task; `step` covers steps with no semaphore or
synthesis effect. -/
inductive SEv where
  | step : String → SEv
  | acquirePermit : SEv
  | releasePermit : SEv
  | spawnProcess : Bool → Bool → SEv
  | spawnPrefetch : SEv
  | synthStart : SEv
  | synthEnd : SEv
deriving DecidableEq

/-- The ordered steps of one successful `handle_client` run (`server.rs`
lines 342 to 417): both timed reads, the decode, the permit acquisition,
the config load, the filename computation, the `tokio::spawn` of
`process_voice_request` (cache outcome and provider outcome as flags),
and the implicit permit release when the guard is dropped at return. -/
def handleClientEvents (cacheHit success : Bool) : List SEv :=
  [.step "read_len", .step "read_body", .step "decode", .acquirePermit,
   .step "load_config", .step "compute_filename", .spawnProcess cacheHit success,
   .releasePermit]

/-- The ordered steps of one `process_voice_request` run (`server.rs`
lines 421 to 537) for the given cache outcome and provider outcome.  No
semaphore operation occurs in this function. -/
def processVoiceEvents (cacheHit success : Bool) : List SEv :=
  if cacheHit then
    [.step "resolve_cache_dir", .step "create_cache_dir", .step "cache_hit", .spawnPrefetch]
  else
    [.step "resolve_cache_dir", .step "create_cache_dir", .step "cache_miss",
     .step "mark_in_progress", .synthStart, .synthEnd, .step "mark_completed"] ++
      (if success then [.spawnPrefetch] else [])

/-- The ordered steps of one generating iteration of the prefetch walk
(`server.rs` lines 267 to 328).  No semaphore operation occurs anywhere
in `prefetch_voices`. -/
def prefetchItemEvents : List SEv :=
  [.step "check_cache_exists", .step "check_is_generating", .step "mark_in_progress",
   .synthStart, .synthEnd, .step "mark_completed", .step "sleep_200ms"]

/-- Scheduler state: the pending tasks, the free permits of the
admission semaphore, the number of currently running syntheses, and the
largest number of simultaneously running syntheses seen so far. -/
structure SchedState where
  tasks : List (List SEv)
  permits : Nat
  active : Nat
  maxActive : Nat
deriving DecidableEq

/-- Run one step of task `i`: `acquirePermit` blocks (the step is
invalid) when no permit is free; `spawnProcess` and `spawnPrefetch`
append the spawned task; `synthStart` and `synthEnd` track the number of
active syntheses. -/
def schedStep (st : SchedState) (i : Nat) : Option SchedState :=
  match st.tasks.get? i with
  | none => none
  | some [] => none
  | some (e :: rest) =>
    let tasks' := st.tasks.set i rest
    match e with
    | .step _ => some { st with tasks := tasks' }
    | .acquirePermit =>
      if st.permits = 0 then none
      else some { st with tasks := tasks', permits := st.permits - 1 }
    | .releasePermit => some { st with tasks := tasks', permits := st.permits + 1 }
    | .spawnProcess h s => some { st with tasks := tasks' ++ [processVoiceEvents h s] }
    | .spawnPrefetch => some { st with tasks := tasks' ++ [prefetchItemEvents] }
    | .synthStart =>
      some { st with tasks := tasks', active := st.active + 1,
                     maxActive := max st.maxActive (st.active + 1) }
    | .synthEnd => some { st with tasks := tasks', active := st.active - 1 }

/-- Run a whole schedule (a list of task choices), failing if any chosen
step is invalid. -/
def schedRun (st : SchedState) : List Nat → Option SchedState
  | [] => some st
  | i :: rest =>
    match schedStep st i with
    | none => none
    | some st' => schedRun st' rest

/-- A concrete schedule: run two client handlers to completion, then let
each spawned synthesis task run up to its `synthStart`. -/
def twoClientSchedule : List Nat :=
  [0, 0, 0, 0, 0, 0, 0, 0,
   1, 1, 1, 1, 1, 1, 1, 1,
   2, 2, 2, 2, 2,
   3, 3, 3, 3, 3]

/-! ## Lock-holding critical sections (`server.rs` lines 107 to 126, 258
to 261, 283 to 321, 483 to 530, 555 to 559, 592 to 618)

Each block of code executed between a `lock().await` and the drop of the
guard is flattened into the list of actions performed while the lock is
held: in-memory map operations, awaited I/O, or blocking (non-awaited)
file reads.
-/

/-- One action performed while holding a lock. -/
inductive LockAction where
  | mapOp : String → LockAction
  | ioAwait : String → LockAction
  | blockingRead : String → LockAction
deriving DecidableEq

/-- Whether the action suspends on awaited I/O. -/
def LockAction.isAwait : LockAction → Bool
  | .ioAwait _ => true
  | _ => false

/-- Critical section of the `is_generating` check (`server.rs` lines 288
to 291). -/
def is_generating_cs : List LockAction := [.mapOp "is_generating"]

/-- Critical section of a `mark_in_progress` call (`server.rs` lines 300
to 303 and 483 to 486). -/
def mark_in_progress_cs : List LockAction := [.mapOp "mark_in_progress"]

/-- Critical section of a `mark_completed` call (`server.rs` lines 318
to 321, 494 to 497, and 527 to 530). -/
def mark_completed_cs : List LockAction := [.mapOp "mark_completed"]

/-- Critical section of the text-list acquisition in `prefetch_voices`
(lines 258 to 261) and `try_prefetch_voices` (lines 555 to 559): the
guard is held across `get_text_list` (lines 107 to 126), which on a
first load awaits `TokioFile::open` and the `next_line` reads before
inserting into the memo map; the clone of the returned list also happens
under the guard. -/
def get_text_list_cs (alreadyLoaded : Bool) : List LockAction :=
  if alreadyLoaded then
    [.mapOp "contains_key", .mapOp "get", .mapOp "clone_list"]
  else
    [.mapOp "contains_key", .ioAwait "tokio_file_open", .ioAwait "read_lines",
     .mapOp "insert", .mapOp "get", .mapOp "clone_list"]

/-- Critical section of `load_or_get_config` (`server.rs` lines 592 to
618): the config-cache lock is held across a synchronous (non-awaited)
parse of the configuration file on a miss. -/
def load_or_get_config_cs (cached : Bool) : List LockAction :=
  if cached then [.mapOp "get"]
  else [.mapOp "get", .blockingRead "parse_config_file", .mapOp "insert"]

/-- Whether an outcome is an error. -/
def isErr : Except String Unit → Bool
  | .ok _ => false
  | .error _ => true

/-! ## Sanity checks of the MD5 implementation -/

/-- Sanity check of the MD5 implementation against the standard test
vector for the empty string. -/
theorem md5Hex_empty_vector : md5Hex (utf8Bytes "") = "d41d8cd98f00b204e9800998ecf8427e" := by
  decide

/-- Sanity check of the MD5 implementation against the standard test
vector for the one-character string. -/
theorem md5Hex_a_vector : md5Hex (utf8Bytes "a") = "0cc175b9c0f1b6a831c399e269772661" := by
  decide

/-! ## Helper lemmas about the in-flight registry -/

/-- Inserting twice is the same as inserting once. -/
theorem setInsert_idem (s : List Nat) (i : Nat) :
    setInsert (setInsert s i) i = setInsert s i := by
  unfold setInsert
  by_cases h : i ∈ s
  · simp [h]
  · simp [h]

/-- The inserted element is a member. -/
theorem mem_setInsert_self (s : List Nat) (i : Nat) : i ∈ setInsert s i := by
  unfold setInsert
  by_cases h : i ∈ s
  · simp [h]
  · simp [h]

/-- Insertion of a different element does not change membership. -/
theorem mem_setInsert_of_ne (s : List Nat) (i j : Nat) (h : i ≠ j) :
    (i ∈ setInsert s j) ↔ i ∈ s := by
  unfold setInsert
  by_cases hj : j ∈ s
  · simp [hj]
  · simp [hj, h]

/-- Insertion preserves distinctness of the set elements. -/
theorem setInsert_nodup (s : List Nat) (i : Nat) (hs : s.Nodup) :
    (setInsert s i).Nodup := by
  unfold setInsert
  by_cases h : i ∈ s
  · simpa [h]
  · simp [List.nodup_cons, h, hs]

/-- `mark_in_progress` is an idempotent insert (for every registry). -/
theorem mark_in_progress_idem (m : Registry) (scope : String) (i : Nat) :
    mark_in_progress (mark_in_progress m scope i) scope i = mark_in_progress m scope i := by
  induction m with
  | nil => simp [mark_in_progress, setInsert_idem]
  | cons p rest ih =>
    obtain ⟨k, s⟩ := p
    by_cases hk : k = scope
    · simp [mark_in_progress, hk, setInsert_idem]
    · simp [mark_in_progress, hk, ih]

/-- Immediately after `mark_in_progress`, `is_generating` is true (for
every registry). -/
theorem is_generating_mark_in_progress (m : Registry) (scope : String) (i : Nat) :
    is_generating (mark_in_progress m scope i) scope i = true := by
  induction m with
  | nil => simp [mark_in_progress, is_generating, mem_setInsert_self]
  | cons p rest ih =>
    obtain ⟨k, s⟩ := p
    by_cases hk : k = scope
    · simp [mark_in_progress, is_generating, hk, mem_setInsert_self]
    · simp [mark_in_progress, is_generating, hk, ih]

/-- Setwise well-formedness is preserved by `mark_in_progress`. -/
theorem RegWF_mark_in_progress (m : Registry) (scope : String) (i : Nat) (h : RegWF m) :
    RegWF (mark_in_progress m scope i) := by
  induction m with
  | nil =>
    intro p hp
    simp [mark_in_progress, setInsert] at hp
    simp [hp]
  | cons q rest ih =>
    obtain ⟨k, s⟩ := q
    have hs : s.Nodup := h (k, s) (by simp)
    have hrest : RegWF rest := fun p hp => h p (by simp [hp])
    intro p hp
    by_cases hk : k = scope
    · simp [mark_in_progress, hk] at hp
      rcases hp with hp | hp
      · subst hp
        exact setInsert_nodup s i hs
      · exact h p (by simp [hp])
    · simp [mark_in_progress, hk] at hp
      rcases hp with hp | hp
      · subst hp; exact h (k, s) (by simp)
      · exact ih hrest p hp

/-- `mark_completed` is an idempotent remove on well-formed registries. -/
theorem mark_completed_idem (m : Registry) (scope : String) (i : Nat) (h : RegWF m) :
    mark_completed (mark_completed m scope i) scope i = mark_completed m scope i := by
  induction m with
  | nil => simp [mark_completed]
  | cons p rest ih =>
    obtain ⟨k, s⟩ := p
    have hs : s.Nodup := h (k, s) (by simp)
    have hrest : RegWF rest := fun p hp => h p (by simp [hp])
    by_cases hk : k = scope
    · simp [mark_completed, hk, List.erase_of_not_mem hs.not_mem_erase]
    · simp [mark_completed, hk, ih hrest]

/-- Immediately after `mark_completed`, `is_generating` is false on
well-formed registries. -/
theorem is_generating_mark_completed (m : Registry) (scope : String) (i : Nat) (h : RegWF m) :
    is_generating (mark_completed m scope i) scope i = false := by
  induction m with
  | nil => simp [mark_completed, is_generating]
  | cons p rest ih =>
    obtain ⟨k, s⟩ := p
    have hs : s.Nodup := h (k, s) (by simp)
    have hrest : RegWF rest := fun p hp => h p (by simp [hp])
    by_cases hk : k = scope
    · simp [mark_completed, is_generating, hk, hs.not_mem_erase]
    · simp [mark_completed, is_generating, hk, ih hrest]

/-- `mark_in_progress` on one pair does not affect `is_generating` on a
different pair. -/
theorem is_generating_mark_in_progress_ne (m : Registry) (scope scope' : String)
    (i i' : Nat) (h : (scope, i) ≠ (scope', i')) :
    is_generating (mark_in_progress m scope' i') scope i = is_generating m scope i := by
  have hi_of : scope = scope' → i ≠ i' := fun hss hii => h (by simp [hss, hii])
  induction m with
  | nil =>
    simp only [mark_in_progress, setInsert, List.not_mem_nil, if_false, is_generating]
    by_cases hk : scope' = scope
    · have hi : i ≠ i' := hi_of hk.symm
      simp [hk, hi]
    · simp [hk]
  | cons p rest ih =>
    obtain ⟨k, s⟩ := p
    simp only [mark_in_progress]
    by_cases hk : k = scope'
    · simp only [if_pos hk, is_generating]
      by_cases hks : k = scope
      · have hi : i ≠ i' := hi_of (hks.symm.trans hk)
        simp [hks, mem_setInsert_of_ne s i i' hi]
      · simp [hks]
    · simp only [if_neg hk, is_generating]
      by_cases hks : k = scope
      · simp [hks]
      · simp [hks, ih]

/-- `mark_completed` on one pair does not affect `is_generating` on a
different pair. -/
theorem is_generating_mark_completed_ne (m : Registry) (scope scope' : String)
    (i i' : Nat) (h : (scope, i) ≠ (scope', i')) :
    is_generating (mark_completed m scope' i') scope i = is_generating m scope i := by
  have hi_of : scope = scope' → i ≠ i' := fun hss hii => h (by simp [hss, hii])
  induction m with
  | nil => simp [mark_completed]
  | cons p rest ih =>
    obtain ⟨k, s⟩ := p
    simp only [mark_completed]
    by_cases hk : k = scope'
    · simp only [if_pos hk, is_generating]
      by_cases hks : k = scope
      · have hi : i ≠ i' := hi_of (hks.symm.trans hk)
        simp [hks, List.mem_erase_of_ne hi]
      · simp [hks]
    · simp only [if_neg hk, is_generating]
      by_cases hks : k = scope
      · simp [hks]
      · simp [hks, ih]

/-- Marking a not-in-flight identifier in progress and then completed
leaves every `is_generating` observation unchanged. -/
theorem is_generating_roundtrip (m : Registry) (scope : String) (i : Nat)
    (h : is_generating m scope i = false) (s : String) (n : Nat) :
    is_generating (mark_completed (mark_in_progress m scope i) scope i) s n =
      is_generating m s n := by
  induction m with
  | nil =>
    simp only [mark_in_progress, setInsert, List.not_mem_nil, if_false, mark_completed,
      List.erase_cons_head, is_generating]
    by_cases hk : scope = s
    · simp [hk]
    · simp [hk]
  | cons p rest ih =>
    obtain ⟨k, s'⟩ := p
    by_cases hk : k = scope
    · rw [is_generating] at h
      rw [if_pos hk] at h
      have hi : i ∉ s' := by simpa using h
      simp [mark_in_progress, mark_completed, setInsert, hk, hi, is_generating]
    · rw [is_generating] at h
      rw [if_neg hk] at h
      simp [mark_in_progress, mark_completed, hk, is_generating, ih h]

/-! ## Helper lemmas about the prefetch walk -/

/-- The prefetch walk leaves every `is_generating` observation on the
registry as it found it: each generated line is marked in progress only
after the in-flight check showed it absent, and is marked completed
afterwards on success and on failure alike. -/
theorem prefetchGo_reg_pointwise (provider : String → SynthResult) (tl : List String)
    (scope : String) (k : Nat) :
    ∀ fuel line count st s n,
      is_generating (prefetchGo provider tl scope k fuel line count st).2.2.reg s n =
        is_generating st.reg s n := by
  intro fuel
  induction fuel with
  | zero => intro line count st s n; rfl
  | succ fuel ih =>
    intro line count st s n
    simp only [prefetchGo]
    by_cases hg : line < tl.length ∧ count < k
    · simp only [if_pos hg]
      by_cases ht : rustTrim (tl.getD line "") = ""
      · simp only [if_pos ht, ih]
      · simp only [if_neg ht]
        by_cases hc : generate_cache_filename (tl.getD line "") ∈ st.cache
        · simp only [if_pos hc, ih]
        · simp only [if_neg hc]
          by_cases hgen : is_generating st.reg scope line = true
          · simp only [hgen, if_true, ih]
          · have hgf : is_generating st.reg scope line = false := by
              simpa using hgen
            simp only [hgf, Bool.false_eq_true, if_false]
            cases hp : provider (tl.getD line "") <;>
              simp only [ih, is_generating_roundtrip st.reg scope line hgf]
    · simp only [if_neg hg]

/-- Core induction for the prefetch walk: the walk appends one log event
per visited line, visits exactly the contiguous block of lines from the
start position to the final position, counts exactly the successful
generations, never exceeds the quota, and runs until the quota is met or
the list is exhausted (given enough fuel, which the caller supplies). -/
theorem prefetchGo_spec (provider : String → SynthResult) (tl : List String)
    (scope : String) (k : Nat) :
    ∀ fuel line count st,
      ∃ d : List PEv,
        (prefetchGo provider tl scope k fuel line count st).2.2.log = st.log ++ d ∧
        d.map PEv.line =
          List.range' line ((prefetchGo provider tl scope k fuel line count st).1 - line) ∧
        (prefetchGo provider tl scope k fuel line count st).2.1 =
          count + d.countP PEv.isGenOk ∧
        line ≤ (prefetchGo provider tl scope k fuel line count st).1 ∧
        (count ≤ k → (prefetchGo provider tl scope k fuel line count st).2.1 ≤ k) ∧
        (tl.length - line ≤ fuel → count ≤ k →
          ((prefetchGo provider tl scope k fuel line count st).2.1 = k ∨
            tl.length ≤ (prefetchGo provider tl scope k fuel line count st).1)) := by
  intro fuel
  induction fuel with
  | zero =>
    intro line count st
    refine ⟨[], by simp [prefetchGo], by simp [prefetchGo], by simp [prefetchGo],
      Nat.le_refl line, fun h => h, fun hf _ => ?_⟩
    right
    simpa [prefetchGo] using Nat.le_of_sub_eq_zero (Nat.le_zero.mp hf)
  | succ fuel ih =>
    intro line count st
    simp only [prefetchGo]
    by_cases hg : line < tl.length ∧ count < k
    · simp only [if_pos hg]
      have step :
          ∀ ev : PEv, PEv.line ev = line → (PEv.isGenOk ev = false) →
          ∀ st' : PrefetchState, st'.log = st.log ++ [ev] →
          ∃ d : List PEv,
            (prefetchGo provider tl scope k fuel (line + 1) count st').2.2.log =
              st.log ++ d ∧
            d.map PEv.line =
              List.range' line
                ((prefetchGo provider tl scope k fuel (line + 1) count st').1 - line) ∧
            (prefetchGo provider tl scope k fuel (line + 1) count st').2.1 =
              count + d.countP PEv.isGenOk ∧
            line ≤ (prefetchGo provider tl scope k fuel (line + 1) count st').1 ∧
            (count ≤ k →
              (prefetchGo provider tl scope k fuel (line + 1) count st').2.1 ≤ k) ∧
            (tl.length - line ≤ fuel + 1 → count ≤ k →
              ((prefetchGo provider tl scope k fuel (line + 1) count st').2.1 = k ∨
                tl.length ≤ (prefetchGo provider tl scope k fuel (line + 1) count st').1)) := by
        intro ev hevline hevok st' hst'
        obtain ⟨d, hlog, hmap, hcount, hline, hquota, hterm⟩ := ih (line + 1) count st'
        refine ⟨ev :: d, ?_, ?_, ?_, ?_, hquota, ?_⟩
        · rw [hlog, hst']; simp
        · have h1 : (prefetchGo provider tl scope k fuel (line + 1) count st').1 - line =
              ((prefetchGo provider tl scope k fuel (line + 1) count st').1 - (line + 1)) + 1 := by
            omega
          rw [h1, List.range'_succ]
          simp [hevline, hmap]
        · rw [hcount]
          simp [List.countP_cons, hevok]
        · omega
        · intro hf hck
          exact hterm (by omega) hck
      by_cases ht : rustTrim (tl.getD line "") = ""
      · simp only [if_pos ht]
        exact step (.skipEmpty line) rfl rfl _ rfl
      · simp only [if_neg ht]
        by_cases hc : generate_cache_filename (tl.getD line "") ∈ st.cache
        · simp only [if_pos hc]
          exact step (.skipExisting line) rfl rfl _ rfl
        · simp only [if_neg hc]
          by_cases hgen : is_generating st.reg scope line = true
          · simp only [hgen, if_true]
            exact step (.skipInProgress line) rfl rfl _ rfl
          · have hgf : is_generating st.reg scope line = false := by simpa using hgen
            simp only [hgf, Bool.false_eq_true, if_false]
            cases hp : provider (tl.getD line "") with
            | ok =>
              dsimp only
              obtain ⟨d, hlog, hmap, hcount, hline, hquota, hterm⟩ :=
                ih (line + 1) (count + 1)
                  { cache := generate_cache_filename (tl.getD line "") :: st.cache,
                    reg := mark_completed (mark_in_progress st.reg scope line) scope line,
                    log := st.log ++ [.genOk line] }
              refine ⟨.genOk line :: d, ?_, ?_, ?_, ?_, ?_, ?_⟩
              · rw [hlog]; simp
              · have h1 : (prefetchGo provider tl scope k fuel (line + 1) (count + 1)
                    { cache := generate_cache_filename (tl.getD line "") :: st.cache,
                      reg := mark_completed (mark_in_progress st.reg scope line) scope line,
                      log := st.log ++ [.genOk line] }).1 - line =
                    ((prefetchGo provider tl scope k fuel (line + 1) (count + 1)
                    { cache := generate_cache_filename (tl.getD line "") :: st.cache,
                      reg := mark_completed (mark_in_progress st.reg scope line) scope line,
                      log := st.log ++ [.genOk line] }).1 - (line + 1)) + 1 := by
                  omega
                rw [h1, List.range'_succ]
                simp [hmap, PEv.line]
              · rw [hcount]
                simp [List.countP_cons, PEv.isGenOk]
                omega
              · omega
              · intro hck
                exact hquota hg.2
              · intro hf hck
                exact hterm (by omega) hg.2
            | errNoFile =>
              exact step (.genFail line) rfl rfl _ rfl
            | errFile =>
              exact step (.genFail line) rfl rfl _ rfl
    · simp only [if_neg hg]
      refine ⟨[], by simp, by simp, by simp, Nat.le_refl line, fun h => h, fun hf hck => ?_⟩
      omega

/-- Transport of a visit classification across a walk step that left
the cache unchanged and the registry observationally unchanged. -/
theorem PEvClass_lift_same (provider : String → SynthResult) (tl : List String)
    (scope : String) (cache : List String) (reg reg' : Registry) (d d' : List PEv)
    (hreg : ∀ n, is_generating reg' scope n = is_generating reg scope n)
    (hsub : ∀ e, e ∈ d' → e ∈ d)
    (ev : PEv) (h : PEvClass provider tl scope cache reg' d' ev) :
    PEvClass provider tl scope cache reg d ev := by
  cases ev with
  | skipEmpty n => exact h
  | skipExisting n =>
    obtain ⟨h1, h2⟩ := h
    refine ⟨h1, ?_⟩
    rcases h2 with h2 | ⟨m, hm, hlt, heq⟩
    · exact Or.inl h2
    · refine Or.inr ⟨m, ?_, hlt, heq⟩
      rcases hm with hm | hm
      exacts [Or.inl (hsub _ hm), Or.inr (hsub _ hm)]
  | skipInProgress n =>
    obtain ⟨h1, h2, h3⟩ := h
    exact ⟨h1, h2, (hreg n).symm.trans h3⟩
  | genOk n =>
    obtain ⟨h1, h2, h3, h4⟩ := h
    exact ⟨h1, h2, (hreg n).symm.trans h3, h4⟩
  | genFail n =>
    obtain ⟨h1, h2, h3, h4⟩ := h
    exact ⟨h1, h2, (hreg n).symm.trans h3, h4⟩

/-- Transport of a visit classification across a generating walk step:
the step added its own line's artifact to the cache, so a later
already-cached skip that hit exactly that artifact is accounted to the
generating event. -/
theorem PEvClass_lift_gen (provider : String → SynthResult) (tl : List String)
    (scope : String) (cache : List String) (reg reg' : Registry) (d d' : List PEv)
    (genLine : Nat)
    (hreg : ∀ n, is_generating reg' scope n = is_generating reg scope n)
    (hsub : ∀ e, e ∈ d' → e ∈ d)
    (hgen : PEv.genOk genLine ∈ d ∨ PEv.genFail genLine ∈ d)
    (hlines : ∀ e, e ∈ d' → genLine < PEv.line e)
    (ev : PEv) (hev : ev ∈ d')
    (h : PEvClass provider tl scope
      (generate_cache_filename (tl.getD genLine "") :: cache) reg' d' ev) :
    PEvClass provider tl scope cache reg d ev := by
  cases ev with
  | skipEmpty n => exact h
  | skipExisting n =>
    obtain ⟨h1, h2⟩ := h
    refine ⟨h1, ?_⟩
    rcases h2 with h2 | ⟨m, hm, hlt, heq⟩
    · rcases List.mem_cons.mp h2 with h2 | h2
      · exact Or.inr ⟨genLine, hgen, hlines _ hev, h2.symm⟩
      · exact Or.inl h2
    · refine Or.inr ⟨m, ?_, hlt, heq⟩
      rcases hm with hm | hm
      exacts [Or.inl (hsub _ hm), Or.inr (hsub _ hm)]
  | skipInProgress n =>
    obtain ⟨h1, h2, h3⟩ := h
    exact ⟨h1, fun hmem => h2 (List.mem_cons_of_mem _ hmem), (hreg n).symm.trans h3⟩
  | genOk n =>
    obtain ⟨h1, h2, h3, h4⟩ := h
    exact ⟨h1, fun hmem => h2 (List.mem_cons_of_mem _ hmem), (hreg n).symm.trans h3, h4⟩
  | genFail n =>
    obtain ⟨h1, h2, h3, h4⟩ := h
    exact ⟨h1, fun hmem => h2 (List.mem_cons_of_mem _ hmem), (hreg n).symm.trans h3, h4⟩

/-- Pushing a kept element through the filter, map, reverse, append
chain used to describe the walk's cache evolution. -/
theorem filter_map_reverse_cons_pos {α β : Type} (p : α → Bool) (f : α → β)
    (a : α) (l : List α) (cs : List β) (hpa : p a = true) :
    ((List.filter p (a :: l)).map f).reverse ++ cs =
      ((List.filter p l).map f).reverse ++ (f a :: cs) := by
  rw [List.filter_cons_of_pos hpa, List.map_cons, List.reverse_cons,
    List.append_assoc, List.singleton_append]

/-- Pushing a dropped element through the filter, map, reverse, append
chain used to describe the walk's cache evolution. -/
theorem filter_map_reverse_cons_neg {α β : Type} (p : α → Bool) (f : α → β)
    (a : α) (l : List α) (cs : List β) (hpa : p a = false) :
    ((List.filter p (a :: l)).map f).reverse ++ cs =
      ((List.filter p l).map f).reverse ++ cs := by
  rw [List.filter_cons_of_neg (by simp [hpa])]

/-- Classification induction for the prefetch walk: the walk appends a
block of events whose lines are at or after the start line, the final
cache contents are exactly the initial ones plus the artifacts of the
generation events that created a file, and every appended event is
classified by the visit conditions of its line (blank, already cached,
in flight, or attempted with the provider outcome). -/
theorem prefetchGo_classify (provider : String → SynthResult) (tl : List String)
    (scope : String) (k : Nat) :
    ∀ fuel line count st,
      ∃ d : List PEv,
        (prefetchGo provider tl scope k fuel line count st).2.2.log = st.log ++ d ∧
        (∀ ev ∈ d, line ≤ PEv.line ev) ∧
        (prefetchGo provider tl scope k fuel line count st).2.2.cache =
          ((d.filter (fun e => e.isGen &&
              decide (provider (tl.getD (PEv.line e) "") ≠ SynthResult.errNoFile))).map
            (fun e => generate_cache_filename (tl.getD (PEv.line e) ""))).reverse ++
            st.cache ∧
        (∀ ev ∈ d, PEvClass provider tl scope st.cache st.reg d ev) := by
  intro fuel
  induction fuel with
  | zero =>
    intro line count st
    exact ⟨[], by simp [prefetchGo], by simp, by simp [prefetchGo], by simp⟩
  | succ fuel ih =>
    intro line count st
    simp only [prefetchGo]
    by_cases hg : line < tl.length ∧ count < k
    · simp only [if_pos hg]
      have skipStep :
          ∀ ev : PEv, PEv.line ev = line → PEv.isGen ev = false →
          (∀ dd : List PEv, PEvClass provider tl scope st.cache st.reg dd ev) →
          ∃ d : List PEv,
            (prefetchGo provider tl scope k fuel (line + 1) count
              { st with log := st.log ++ [ev] }).2.2.log = st.log ++ d ∧
            (∀ e ∈ d, line ≤ PEv.line e) ∧
            (prefetchGo provider tl scope k fuel (line + 1) count
              { st with log := st.log ++ [ev] }).2.2.cache =
              ((d.filter (fun e => e.isGen &&
                  decide (provider (tl.getD (PEv.line e) "") ≠
                    SynthResult.errNoFile))).map
                (fun e => generate_cache_filename (tl.getD (PEv.line e) ""))).reverse ++
                st.cache ∧
            (∀ e ∈ d, PEvClass provider tl scope st.cache st.reg d e) := by
        intro ev hevline hevgen hcls
        obtain ⟨d', h1, h2, h3, h4⟩ :=
          ih (line + 1) count { st with log := st.log ++ [ev] }
        refine ⟨ev :: d', ?_, ?_, ?_, ?_⟩
        · rw [h1]; simp
        · intro e he
          rcases List.mem_cons.mp he with rfl | he
          · exact Nat.le_of_eq hevline.symm
          · exact Nat.le_of_succ_le (h2 e he)
        · rw [h3]
          simp [List.filter_cons, hevgen]
        · intro e he
          rcases List.mem_cons.mp he with rfl | he
          · exact hcls _
          · exact PEvClass_lift_same provider tl scope st.cache st.reg st.reg _ d'
              (fun n => rfl) (fun x hx => List.mem_cons_of_mem _ hx) e (h4 e he)
      by_cases ht : rustTrim (tl.getD line "") = ""
      · simp only [if_pos ht]
        exact skipStep (.skipEmpty line) rfl rfl (fun dd => ht)
      · simp only [if_neg ht]
        by_cases hc : generate_cache_filename (tl.getD line "") ∈ st.cache
        · simp only [if_pos hc]
          exact skipStep (.skipExisting line) rfl rfl (fun dd => ⟨ht, Or.inl hc⟩)
        · simp only [if_neg hc]
          by_cases hgen : is_generating st.reg scope line = true
          · simp only [hgen, if_true]
            exact skipStep (.skipInProgress line) rfl rfl (fun dd => ⟨ht, hc, hgen⟩)
          · have hgf : is_generating st.reg scope line = false := by simpa using hgen
            simp only [hgf, Bool.false_eq_true, if_false]
            have hregpres : ∀ n,
                is_generating
                  (mark_completed (mark_in_progress st.reg scope line) scope line)
                  scope n = is_generating st.reg scope n :=
              fun n => is_generating_roundtrip st.reg scope line hgf scope n
            cases hp : provider (tl.getD line "") with
            | ok =>
              dsimp only
              obtain ⟨d', h1, h2, h3, h4⟩ :=
                ih (line + 1) (count + 1)
                  { cache := generate_cache_filename (tl.getD line "") :: st.cache,
                    reg := mark_completed (mark_in_progress st.reg scope line) scope line,
                    log := st.log ++ [.genOk line] }
              refine ⟨.genOk line :: d', ?_, ?_, ?_, ?_⟩
              · rw [h1]; simp
              · intro e he
                rcases List.mem_cons.mp he with rfl | he
                · exact Nat.le_refl line
                · exact Nat.le_of_succ_le (h2 e he)
              · rw [h3]
                have hcond : ((fun e => PEv.isGen e && decide
                    (provider (tl.getD (PEv.line e) "") ≠ SynthResult.errNoFile))
                      (PEv.genOk line)) = true := by
                  show (true && decide (provider (tl.getD line "") ≠
                    SynthResult.errNoFile)) = true
                  rw [hp]
                  decide
                rw [filter_map_reverse_cons_pos
                    (fun e => PEv.isGen e && decide
                      (provider (tl.getD (PEv.line e) "") ≠ SynthResult.errNoFile))
                    (fun e => generate_cache_filename (tl.getD (PEv.line e) ""))
                    (PEv.genOk line) d' st.cache hcond]
                rfl
              · intro e he
                rcases List.mem_cons.mp he with rfl | he
                · exact ⟨ht, hc, hgf, hp⟩
                · exact PEvClass_lift_gen provider tl scope st.cache st.reg _ _ d' line
                    hregpres (fun x hx => List.mem_cons_of_mem _ hx)
                    (Or.inl (List.mem_cons_self _ _))
                    (fun x hx => Nat.lt_of_succ_le (h2 x hx)) e he (h4 e he)
            | errNoFile =>
              dsimp only
              obtain ⟨d', h1, h2, h3, h4⟩ :=
                ih (line + 1) count
                  { cache := st.cache,
                    reg := mark_completed (mark_in_progress st.reg scope line) scope line,
                    log := st.log ++ [.genFail line] }
              refine ⟨.genFail line :: d', ?_, ?_, ?_, ?_⟩
              · rw [h1]; simp
              · intro e he
                rcases List.mem_cons.mp he with rfl | he
                · exact Nat.le_refl line
                · exact Nat.le_of_succ_le (h2 e he)
              · rw [h3]
                have hcond : ((fun e => PEv.isGen e && decide
                    (provider (tl.getD (PEv.line e) "") ≠ SynthResult.errNoFile))
                      (PEv.genFail line)) = false := by
                  show (true && decide (provider (tl.getD line "") ≠
                    SynthResult.errNoFile)) = false
                  rw [hp]
                  decide
                rw [filter_map_reverse_cons_neg
                    (fun e => PEv.isGen e && decide
                      (provider (tl.getD (PEv.line e) "") ≠ SynthResult.errNoFile))
                    (fun e => generate_cache_filename (tl.getD (PEv.line e) ""))
                    (PEv.genFail line) d' st.cache hcond]
              · intro e he
                rcases List.mem_cons.mp he with rfl | he
                · exact ⟨ht, hc, hgf, by rw [hp]; decide⟩
                · exact PEvClass_lift_same provider tl scope st.cache st.reg _ _ d'
                    hregpres (fun x hx => List.mem_cons_of_mem _ hx) e (h4 e he)
            | errFile =>
              dsimp only
              obtain ⟨d', h1, h2, h3, h4⟩ :=
                ih (line + 1) count
                  { cache := generate_cache_filename (tl.getD line "") :: st.cache,
                    reg := mark_completed (mark_in_progress st.reg scope line) scope line,
                    log := st.log ++ [.genFail line] }
              refine ⟨.genFail line :: d', ?_, ?_, ?_, ?_⟩
              · rw [h1]; simp
              · intro e he
                rcases List.mem_cons.mp he with rfl | he
                · exact Nat.le_refl line
                · exact Nat.le_of_succ_le (h2 e he)
              · rw [h3]
                have hcond : ((fun e => PEv.isGen e && decide
                    (provider (tl.getD (PEv.line e) "") ≠ SynthResult.errNoFile))
                      (PEv.genFail line)) = true := by
                  show (true && decide (provider (tl.getD line "") ≠
                    SynthResult.errNoFile)) = true
                  rw [hp]
                  decide
                rw [filter_map_reverse_cons_pos
                    (fun e => PEv.isGen e && decide
                      (provider (tl.getD (PEv.line e) "") ≠ SynthResult.errNoFile))
                    (fun e => generate_cache_filename (tl.getD (PEv.line e) ""))
                    (PEv.genFail line) d' st.cache hcond]
                rfl
              · intro e he
                rcases List.mem_cons.mp he with rfl | he
                · exact ⟨ht, hc, hgf, by rw [hp]; decide⟩
                · exact PEvClass_lift_gen provider tl scope st.cache st.reg _ _ d' line
                    hregpres (fun x hx => List.mem_cons_of_mem _ hx)
                    (Or.inr (List.mem_cons_self _ _))
                    (fun x hx => Nat.lt_of_succ_le (h2 x hx)) e he (h4 e he)
    · simp only [if_neg hg]
      exact ⟨[], by simp, by simp, by simp, by simp⟩

/-! ## Helper lemmas about the current-text scan -/

/-- The scan's accumulator only shifts its result. -/
theorem findPosAux_shift (cur : String) :
    ∀ (l : List String) (i : Nat), findPosAux cur l i = i + findPosAux cur l 0 := by
  intro l
  induction l with
  | nil => intro i; simp [findPosAux]
  | cons t rest ih =>
    intro i
    by_cases h : rustTrim t = cur
    · simp [findPosAux, h]
    · simp only [findPosAux, if_neg h]
      rw [ih (i + 1), ih 1]
      omega

/-- Unfolding of the scan one line at a time. -/
theorem findCurrentPosition_cons (t : String) (rest : List String) (cur : String) :
    findCurrentPosition (t :: rest) cur =
      if rustTrim t = cur then 0 else findCurrentPosition rest cur + 1 := by
  unfold findCurrentPosition
  by_cases h : rustTrim t = cur
  · simp [findPosAux, h]
  · simp only [findPosAux, if_neg h]
    rw [findPosAux_shift cur rest 1]
    omega

/-- The scan result never exceeds the list length. -/
theorem findCurrentPosition_le_length (tl : List String) (cur : String) :
    findCurrentPosition tl cur ≤ tl.length := by
  induction tl with
  | nil => simp [findCurrentPosition, findPosAux]
  | cons t rest ih =>
    rw [findCurrentPosition_cons]
    by_cases h : rustTrim t = cur
    · simp [h]
    · simp only [if_neg h, List.length_cons]
      omega

/-- No line before the scan result matches the current text. -/
theorem findCurrentPosition_not_before (tl : List String) (cur : String) :
    ∀ j, j < tl.length → j < findCurrentPosition tl cur → rustTrim (tl.getD j "") ≠ cur := by
  induction tl with
  | nil => intro j hj; simp at hj
  | cons t rest ih =>
    intro j hj hlt
    rw [findCurrentPosition_cons] at hlt
    by_cases h : rustTrim t = cur
    · rw [if_pos h] at hlt; omega
    · rw [if_neg h] at hlt
      cases j with
      | zero => simpa using h
      | succ j =>
        have := ih j (by simpa using hj) (by omega)
        simpa using this

/-- When the scan result is inside the list, that line matches the
current text. -/
theorem findCurrentPosition_matches (tl : List String) (cur : String) :
    ∀ _ : findCurrentPosition tl cur < tl.length,
      rustTrim (tl.getD (findCurrentPosition tl cur) "") = cur := by
  induction tl with
  | nil => intro h; simp [findCurrentPosition, findPosAux] at h
  | cons t rest ih =>
    intro h
    by_cases hm : rustTrim t = cur
    · rw [findCurrentPosition_cons, if_pos hm]
      simpa using hm
    · rw [findCurrentPosition_cons, if_neg hm]
      rw [findCurrentPosition_cons, if_neg hm] at h
      have hlt : findCurrentPosition rest cur < rest.length := by
        simp only [List.length_cons] at h; omega
      simpa using ih hlt

/-- When no line matches, the scan result is the list length. -/
theorem findCurrentPosition_no_match (tl : List String) (cur : String)
    (h : ∀ j, j < tl.length → rustTrim (tl.getD j "") ≠ cur) :
    findCurrentPosition tl cur = tl.length := by
  induction tl with
  | nil => simp [findCurrentPosition, findPosAux]
  | cons t rest ih =>
    rw [findCurrentPosition_cons]
    have ht : rustTrim t ≠ cur := by simpa using h 0 (by simp)
    rw [if_neg ht]
    have : findCurrentPosition rest cur = rest.length := by
      apply ih
      intro j hj
      simpa using h (j + 1) (by simpa using hj)
    simp [this]

/-! ## Claim theorems -/

/-- Claim C10: for every text string, the cache filename the server
computes (`generate_cache_filename`: lowercase hex MD5 digest of the
text's bytes followed by ".wav") equals the filename the client computes
inline for its cache lookup, so client-side cache hits and server-side
cache stores agree on the artifact path for the same text. -/
theorem cache_filename_client_server_agree :
    ∀ text : String, generate_cache_filename text = clientVoiceFilename text :=
  fun _ => rfl

/-- Claim C4: `mark_in_progress` is an idempotent insert and
`mark_completed` an idempotent remove; right after `mark_completed`,
`is_generating` is false; right after `mark_in_progress`, it is true;
and both operations leave distinct (scope, id) pairs unaffected, so the
truth of `is_generating` persists from a `mark_in_progress` to the
matching `mark_completed` across operations on other pairs. -/
theorem voice_manager_mark_algebra (m : Registry) (scope scope' : String) (i i' : Nat)
    (hwf : RegWF m) (hne : (scope, i) ≠ (scope', i')) :
    mark_in_progress (mark_in_progress m scope i) scope i = mark_in_progress m scope i ∧
    mark_completed (mark_completed m scope i) scope i = mark_completed m scope i ∧
    is_generating (mark_completed m scope i) scope i = false ∧
    is_generating (mark_in_progress m scope i) scope i = true ∧
    is_generating (mark_in_progress m scope' i') scope i = is_generating m scope i ∧
    is_generating (mark_completed m scope' i') scope i = is_generating m scope i :=
  ⟨mark_in_progress_idem m scope i, mark_completed_idem m scope i hwf,
   is_generating_mark_completed m scope i hwf, is_generating_mark_in_progress m scope i,
   is_generating_mark_in_progress_ne m scope scope' i i' hne,
   is_generating_mark_completed_ne m scope scope' i i' hne⟩

/-- Concrete instance of the registry algebra on a well-formed registry. -/
theorem voice_manager_mark_algebra_witness :
    is_generating (mark_completed [("L", [1])] "L" 1) "L" 1 = false ∧
    is_generating (mark_in_progress [("L", [1])] "L" 2) "L" 1 =
      is_generating [("L", [1])] "L" 1 := by
  have h := voice_manager_mark_algebra [("L", [1])] "L" "L" 1 2 (by decide) (by decide)
  exact ⟨h.2.2.1, h.2.2.2.2.1⟩

/-- Claim C5: the prefetch starting position comes from a linear scan
for the first line whose trimmed content equals the current text (no
earlier line matches, the found line matches, duplicates resolve to the
first occurrence); the start position is the match index plus one; and
when no line matches, the scan result is the list end, and
`try_prefetch_voices` performs no walk. -/
theorem prefetch_start_position_spec (tl : List String) (cur : String) :
    (∀ j, j < tl.length → j < findCurrentPosition tl cur → rustTrim (tl.getD j "") ≠ cur) ∧
    (findCurrentPosition tl cur < tl.length →
      rustTrim (tl.getD (findCurrentPosition tl cur) "") = cur) ∧
    findCurrentPosition tl cur ≤ tl.length ∧
    ((∀ j, j < tl.length → rustTrim (tl.getD j "") ≠ cur) →
      findCurrentPosition tl cur = tl.length) ∧
    (∀ (provider : String → SynthResult) (scope : String) (k : Nat) (st : PrefetchState),
      (try_prefetch_voices provider true tl scope k cur st).performed =
        if findCurrentPosition tl cur + 1 < tl.length then
          some (findCurrentPosition tl cur + 1)
        else none) ∧
    (∀ (provider : String → SynthResult) (scope : String) (k : Nat) (st : PrefetchState),
      findCurrentPosition tl cur = tl.length →
      (try_prefetch_voices provider true tl scope k cur st).performed = none) := by
  have hperf : ∀ (provider : String → SynthResult) (scope : String) (k : Nat)
      (st : PrefetchState),
      (try_prefetch_voices provider true tl scope k cur st).performed =
        if findCurrentPosition tl cur + 1 < tl.length then
          some (findCurrentPosition tl cur + 1)
        else none := by
    intro provider scope k st
    simp only [try_prefetch_voices, Bool.not_true, Bool.false_eq_true, if_false]
    by_cases h : findCurrentPosition tl cur + 1 < tl.length
    · simp [h]
    · simp [h]
  refine ⟨findCurrentPosition_not_before tl cur, findCurrentPosition_matches tl cur,
    findCurrentPosition_le_length tl cur, findCurrentPosition_no_match tl cur, hperf,
    fun provider scope k st hend => ?_⟩
  rw [hperf provider scope k st, if_neg (by omega)]

/-- Concrete instance of the start-position computation: the first
occurrence of a duplicated line is selected and the walk starts right
after it. -/
theorem prefetch_start_position_witness :
    rustTrim (["a", "b", "b"].getD (findCurrentPosition ["a", "b", "b"] "b") "") = "b" ∧
    (try_prefetch_voices (fun _ => SynthResult.errNoFile) true ["a", "b", "b"] "L" 1 "b"
      ⟨[], [], []⟩).performed = some (findCurrentPosition ["a", "b", "b"] "b" + 1) := by
  constructor
  · exact (prefetch_start_position_spec ["a", "b", "b"] "b").2.1 (by decide)
  · rw [(prefetch_start_position_spec ["a", "b", "b"] "b").2.2.2.2.1
      (fun _ => SynthResult.errNoFile) "L" 1 ⟨[], [], []⟩]
    decide

/-- Claim C2: a prefetch walk starting at position `start` with quota
`k` visits the contiguous block of lines from `start` to its final
position in order, logging one event per visited line; its success
count equals the number of successful generations in that block and
never exceeds `k`; it stops exactly when the quota is met or the list
is exhausted, whichever comes first; the final cache contents are the
initial ones plus exactly the artifacts of the generation events that
created a file; every logged event is classified by its line's visit
conditions (blank lines are skipped, already-cached lines are skipped,
in-flight lines are skipped — none of these counting toward the quota,
since only successful generations are counted — and generation is
attempted otherwise, succeeding exactly when the provider does); and,
conversely, every visited line that is non-blank, not cached (initially
or by an earlier duplicate in the walk), and not in flight has a
generation attempt. -/
theorem prefetch_walk_spec (provider : String → SynthResult) (tl : List String)
    (scope : String) (k start : Nat) (cache : List String) (reg : Registry) :
    (prefetch_voices provider tl scope k start ⟨cache, reg, []⟩).2.1 ≤ k ∧
    ((prefetch_voices provider tl scope k start ⟨cache, reg, []⟩).2.1 = k ∨
      tl.length ≤ (prefetch_voices provider tl scope k start ⟨cache, reg, []⟩).1) ∧
    start ≤ (prefetch_voices provider tl scope k start ⟨cache, reg, []⟩).1 ∧
    (prefetch_voices provider tl scope k start ⟨cache, reg, []⟩).2.1 =
      (prefetch_voices provider tl scope k start ⟨cache, reg, []⟩).2.2.log.countP
        PEv.isGenOk ∧
    (prefetch_voices provider tl scope k start ⟨cache, reg, []⟩).2.2.log.map PEv.line =
      List.range' start
        ((prefetch_voices provider tl scope k start ⟨cache, reg, []⟩).1 - start) ∧
    (prefetch_voices provider tl scope k start ⟨cache, reg, []⟩).2.2.cache =
      (((prefetch_voices provider tl scope k start ⟨cache, reg, []⟩).2.2.log.filter
          (fun e => e.isGen &&
            decide (provider (tl.getD (PEv.line e) "") ≠ SynthResult.errNoFile))).map
        (fun e => generate_cache_filename (tl.getD (PEv.line e) ""))).reverse ++ cache ∧
    (∀ ev ∈ (prefetch_voices provider tl scope k start ⟨cache, reg, []⟩).2.2.log,
      PEvClass provider tl scope cache reg
        (prefetch_voices provider tl scope k start ⟨cache, reg, []⟩).2.2.log ev) ∧
    (∀ n, start ≤ n →
      n < (prefetch_voices provider tl scope k start ⟨cache, reg, []⟩).1 →
      rustTrim (tl.getD n "") ≠ "" →
      generate_cache_filename (tl.getD n "") ∉ cache →
      is_generating reg scope n = false →
      (∀ m, m < n →
        generate_cache_filename (tl.getD m "") ≠ generate_cache_filename (tl.getD n "")) →
      (PEv.genOk n ∈ (prefetch_voices provider tl scope k start ⟨cache, reg, []⟩).2.2.log ∨
        PEv.genFail n ∈
          (prefetch_voices provider tl scope k start ⟨cache, reg, []⟩).2.2.log)) := by
  obtain ⟨d, hlog, hmap, hcount, hline, hquota, hterm⟩ :=
    prefetchGo_spec provider tl scope k tl.length start 0 ⟨cache, reg, []⟩
  obtain ⟨d2, hlog2, hlines2, hcache2, hclass2⟩ :=
    prefetchGo_classify provider tl scope k tl.length start 0 ⟨cache, reg, []⟩
  have hlog' : (prefetch_voices provider tl scope k start ⟨cache, reg, []⟩).2.2.log = d := by
    simpa [prefetch_voices] using hlog
  have hlog2' : (prefetch_voices provider tl scope k start ⟨cache, reg, []⟩).2.2.log = d2 := by
    simpa [prefetch_voices] using hlog2
  have hline' : start ≤ (prefetch_voices provider tl scope k start ⟨cache, reg, []⟩).1 :=
    hline
  have hmap' :
      (prefetch_voices provider tl scope k start ⟨cache, reg, []⟩).2.2.log.map PEv.line =
        List.range' start
          ((prefetch_voices provider tl scope k start ⟨cache, reg, []⟩).1 - start) := by
    rw [hlog']
    simpa [prefetch_voices] using hmap
  have hcls :
      ∀ ev ∈ (prefetch_voices provider tl scope k start ⟨cache, reg, []⟩).2.2.log,
        PEvClass provider tl scope cache reg
          (prefetch_voices provider tl scope k start ⟨cache, reg, []⟩).2.2.log ev := by
    intro ev hev
    rw [hlog2'] at hev ⊢
    exact hclass2 ev hev
  refine ⟨hquota (Nat.zero_le k), ?_, hline, ?_, hmap', ?_, hcls, ?_⟩
  · exact hterm (Nat.sub_le tl.length start) (Nat.zero_le k)
  · rw [hlog']
    simpa [prefetch_voices] using hcount
  · rw [hlog2']
    simpa [prefetch_voices] using hcache2
  · intro n hs hlt hblank hncache hnreg hnodup
    have hmem : n ∈ List.range' start
        ((prefetch_voices provider tl scope k start ⟨cache, reg, []⟩).1 - start) :=
      List.mem_range'_1.mpr ⟨hs, by omega⟩
    rw [← hmap'] at hmem
    obtain ⟨ev, hevmem, hevline⟩ := List.mem_map.mp hmem
    have hevcls := hcls ev hevmem
    cases ev with
    | skipEmpty m' =>
      simp only [PEv.line] at hevline
      subst hevline
      exact absurd hevcls hblank
    | skipExisting m' =>
      simp only [PEv.line] at hevline
      subst hevline
      obtain ⟨h1, h2⟩ := hevcls
      rcases h2 with h2 | ⟨m, hm, hmlt, hmeq⟩
      · exact absurd h2 hncache
      · exact absurd hmeq (hnodup m hmlt)
    | skipInProgress m' =>
      simp only [PEv.line] at hevline
      subst hevline
      obtain ⟨h1, h2, h3⟩ := hevcls
      rw [hnreg] at h3
      exact absurd h3 (by simp)
    | genOk m' =>
      simp only [PEv.line] at hevline
      subst hevline
      exact Or.inl hevmem
    | genFail m' =>
      simp only [PEv.line] at hevline
      subst hevline
      exact Or.inr hevmem

/-- Concrete instance of the walk specification on the text list
["a", "", "b", "c"] with quota 2 starting after line 0: line 2 is
non-blank, uncached and not in flight, so the walk attempts it. -/
theorem prefetch_walk_spec_witness :
    PEv.genOk 2 ∈ (prefetch_voices (fun _ => SynthResult.ok) ["a", "", "b", "c"] "L" 2 1
      ⟨[], [], []⟩).2.2.log ∨
    PEv.genFail 2 ∈ (prefetch_voices (fun _ => SynthResult.ok) ["a", "", "b", "c"] "L" 2 1
      ⟨[], [], []⟩).2.2.log :=
  (prefetch_walk_spec (fun _ => SynthResult.ok) ["a", "", "b", "c"] "L" 2 1
    [] []).2.2.2.2.2.2.2 2 (by decide) (by decide) (by decide) (by decide) (by decide)
    (by decide)

/-- Claim C3: on every execution path, an identifier marked in progress
is marked completed again whether synthesis succeeds or fails.  For the
direct-request path on a cache miss, the identifier is absent from the
in-flight set after `process_voice_request` returns, for every provider
outcome; a complete prefetch walk leaves every `is_generating`
observation on the registry exactly as it found it. -/
theorem in_flight_never_leaked (provider : String → SynthResult) (cfg : SrvConfig)
    (text dir fn : String) (tlx : Bool) (reg : Registry) (cache : List String)
    (hwf : RegWF reg) (hmiss : fn ∉ cache) :
    is_generating
      (process_voice_request provider cfg text (some dir) fn tlx reg cache).reg
      dir (voiceId fn) = false ∧
    (∀ (tl : List String) (scope : String) (k start : Nat) (c : List String)
      (r : Registry) (s : String) (n : Nat),
      is_generating (prefetch_voices provider tl scope k start ⟨c, r, []⟩).2.2.reg s n =
        is_generating r s n) := by
  constructor
  · have hwf' := RegWF_mark_in_progress reg dir (voiceId fn) hwf
    simp only [process_voice_request]
    rw [if_neg hmiss]
    cases hp : provider text <;>
      exact is_generating_mark_completed _ dir (voiceId fn) hwf'
  · intro tl scope k start c r s n
    exact prefetchGo_reg_pointwise provider tl scope k tl.length start 0 ⟨c, r, []⟩ s n

/-- Concrete instance: a failed direct request leaves its identifier
out of the in-flight set. -/
theorem in_flight_never_leaked_witness :
    is_generating
      (process_voice_request (fun _ => SynthResult.errNoFile) ⟨"", 0, ""⟩ "a"
        (some "L") "f.wav" false [] []).reg
      "L" (voiceId "f.wav") = false :=
  (in_flight_never_leaked (fun _ => SynthResult.errNoFile) ⟨"", 0, ""⟩ "a" "L" "f.wav"
    false [] [] (by decide) (by decide)).1

/-- Claim C6: when the cache artifact for the request text already
exists in the cache directory, `process_voice_request` returns
successfully without calling the synthesis capability and without
touching the in-flight registry; consequently a second run for the same
text, once a first successful run's artifact exists, makes no synthesis
call. -/
theorem cache_hit_idempotent (provider : String → SynthResult) (cfg : SrvConfig)
    (text dir : String) (tlx : Bool) (reg : Registry) (cache : List String) :
    (generate_cache_filename text ∈ cache →
      (process_voice_request provider cfg text (some dir)
        (generate_cache_filename text) tlx reg cache).result = .ok () ∧
      (process_voice_request provider cfg text (some dir)
        (generate_cache_filename text) tlx reg cache).calls = [] ∧
      (process_voice_request provider cfg text (some dir)
        (generate_cache_filename text) tlx reg cache).reg = reg) ∧
    (provider text = .ok →
      (process_voice_request provider cfg text (some dir) (generate_cache_filename text) tlx
        (process_voice_request provider cfg text (some dir)
          (generate_cache_filename text) tlx reg cache).reg
        (process_voice_request provider cfg text (some dir)
          (generate_cache_filename text) tlx reg cache).cache).calls = []) := by
  constructor
  · intro hmem
    simp only [process_voice_request]
    rw [if_pos hmem]
    exact ⟨rfl, rfl, rfl⟩
  · intro hok
    by_cases hmem : generate_cache_filename text ∈ cache
    · have hc : (process_voice_request provider cfg text (some dir)
          (generate_cache_filename text) tlx reg cache).cache = cache := by
        simp only [process_voice_request]
        rw [if_pos hmem]
      rw [hc]
      simp only [process_voice_request]
      rw [if_pos hmem]
    · have hc : (process_voice_request provider cfg text (some dir)
          (generate_cache_filename text) tlx reg cache).cache =
          generate_cache_filename text :: cache := by
        simp only [process_voice_request]
        rw [if_neg hmem, hok]
      rw [hc]
      simp only [process_voice_request]
      rw [if_pos (List.mem_cons_self (generate_cache_filename text) cache)]

/-- Concrete instance: with the artifact cached, the hit path succeeds
with no synthesis call, no registry change, and a repeat run after a
successful first run also makes no call. -/
theorem cache_hit_idempotent_witness :
    (process_voice_request (fun _ => SynthResult.ok) ⟨"", 0, ""⟩ "a" (some "d")
      (generate_cache_filename "a") false [("d", [7])]
      [generate_cache_filename "a"]).result = .ok () ∧
    (process_voice_request (fun _ => SynthResult.ok) ⟨"", 0, ""⟩ "a" (some "d")
      (generate_cache_filename "a") false [("d", [7])]
      [generate_cache_filename "a"]).calls = [] ∧
    (process_voice_request (fun _ => SynthResult.ok) ⟨"", 0, ""⟩ "a" (some "d")
      (generate_cache_filename "a") false [("d", [7])]
      [generate_cache_filename "a"]).reg = [("d", [7])] ∧
    (process_voice_request (fun _ => SynthResult.ok) ⟨"", 0, ""⟩ "a" (some "d")
      (generate_cache_filename "a") false
      (process_voice_request (fun _ => SynthResult.ok) ⟨"", 0, ""⟩ "a" (some "d")
        (generate_cache_filename "a") false [] []).reg
      (process_voice_request (fun _ => SynthResult.ok) ⟨"", 0, ""⟩ "a" (some "d")
        (generate_cache_filename "a") false [] []).cache).calls = [] := by
  have h1 := cache_hit_idempotent (fun _ => SynthResult.ok) ⟨"", 0, ""⟩ "a" "d" false
    [("d", [7])] [generate_cache_filename "a"]
  have h2 := cache_hit_idempotent (fun _ => SynthResult.ok) ⟨"", 0, ""⟩ "a" "d" false [] []
  have hmem : generate_cache_filename "a" ∈ [generate_cache_filename "a"] := by simp
  exact ⟨(h1.1 hmem).1, (h1.1 hmem).2.1, (h1.1 hmem).2.2, h2.2 rfl⟩

/-- Claim C7: the read timeout is 5 seconds; the handler never writes a
response; and a timeout or read error on the length prefix, a timeout
or read error on the body, or a decode failure each make the handler
return an error without spawning any processing task (hence no cache
artifact is created for that connection). -/
theorem connection_error_handling (lenRead : ReadResult (Nat × Nat × Nat × Nat))
    (bodyRead : Nat → ReadResult (List Nat)) (decode : List Nat → Option VoiceRequestM)
    (configLoaded : Bool) :
    readTimeoutSecs = 5 ∧
    (handle_client lenRead bodyRead decode configLoaded).responses = [] ∧
    ((lenRead = .timeout ∨ lenRead = .ioError) →
      isErr (handle_client lenRead bodyRead decode configLoaded).result = true ∧
      (handle_client lenRead bodyRead decode configLoaded).spawned = none) ∧
    (∀ lb, lenRead = .ok lb →
      (bodyRead (u32FromLeBytes lb) = .timeout ∨ bodyRead (u32FromLeBytes lb) = .ioError) →
      isErr (handle_client lenRead bodyRead decode configLoaded).result = true ∧
      (handle_client lenRead bodyRead decode configLoaded).spawned = none) ∧
    (∀ lb bb, lenRead = .ok lb → bodyRead (u32FromLeBytes lb) = .ok bb →
      decode bb = none →
      isErr (handle_client lenRead bodyRead decode configLoaded).result = true ∧
      (handle_client lenRead bodyRead decode configLoaded).spawned = none) := by
  refine ⟨rfl, ?_, ?_, ?_, ?_⟩
  · cases lenRead with
    | timeout => rfl
    | ioError => rfl
    | ok lb =>
      cases hb : bodyRead (u32FromLeBytes lb) with
      | timeout => simp [handle_client, hb]
      | ioError => simp [handle_client, hb]
      | ok bb =>
        cases hd : decode bb with
        | none => simp [handle_client, hb, hd]
        | some req =>
          cases configLoaded <;> simp [handle_client, hb, hd]
  · rintro (rfl | rfl) <;> exact ⟨rfl, rfl⟩
  · rintro lb rfl (hb | hb) <;> simp [handle_client, hb, isErr]
  · rintro lb bb rfl hb hd
    simp [handle_client, hb, hd, isErr]

/-- Concrete instances of the three failure modes: each yields an error
outcome and spawns nothing. -/
theorem connection_error_handling_witness :
    (handle_client .timeout (fun _ => .timeout) (fun _ => none) true).spawned = none ∧
    (handle_client (.ok (0, 0, 0, 0)) (fun _ => .timeout) (fun _ => none) true).spawned =
      none ∧
    (handle_client (.ok (0, 0, 0, 0)) (fun _ => .ok []) (fun _ => none) true).spawned =
      none := by
  have h1 := connection_error_handling .timeout (fun _ => .timeout) (fun _ => none) true
  have h2 := connection_error_handling (.ok (0, 0, 0, 0)) (fun _ => .timeout)
    (fun _ => none) true
  have h3 := connection_error_handling (.ok (0, 0, 0, 0)) (fun _ => .ok [])
    (fun _ => none) true
  exact ⟨(h1.2.2.1 (Or.inl rfl)).2, (h2.2.2.2.1 (0, 0, 0, 0) rfl (Or.inl rfl)).2,
    (h3.2.2.2.2 (0, 0, 0, 0) [] rfl rfl rfl).2⟩

/-- Claim C8: a direct request's de-duplication identifier is the byte
sum of the MD5-derived cache filename (for the text "a" this is 2484),
registered under the cache-directory path as scope in the same registry
that the prefetch walk keys by (text-list path, line number); a prefetch
walk consults that registry with raw line numbers, and a direct
request's derived identifier can collide with a line number within one
scope, as the concrete instance shows. -/
theorem direct_request_identifier_collision :
    voiceId (generate_cache_filename "a") = 2484 ∧
    (∀ (reg : Registry) (d t : String),
      is_generating (mark_in_progress reg d (voiceId (generate_cache_filename t))) d
        (voiceId (generate_cache_filename t)) = true) ∧
    (process_voice_request (fun _ => SynthResult.errNoFile) ⟨"", 0, ""⟩ "a" (some "L")
      (generate_cache_filename "a") false [] []).marked = some ("L", 2484) ∧
    (prefetch_voices (fun _ => SynthResult.errNoFile) ["x"] "L" 1 0
      ⟨[], mark_in_progress [] "L" 0, []⟩).2.2.log = [PEv.skipInProgress 0] ∧
    is_generating (mark_in_progress [] "L" 2484) "L"
      (voiceId (generate_cache_filename "a")) = true :=
  ⟨by decide,
   fun reg d t => is_generating_mark_in_progress reg d (voiceId (generate_cache_filename t)),
   by decide, by decide, by decide⟩

/-- Claim C1 is violated by the code: `handle_client` acquires the
permit but drops it when it returns, immediately after spawning
`process_voice_request`, and `prefetch_voices` contains no semaphore
operation at all.  This theorem evaluates the embedded traces: the
spawned processing task performs the synthesis with no semaphore
operation, the prefetch walk likewise synthesizes without acquiring a
permit, and a valid two-client schedule under a pool of one permit
reaches two simultaneously active syntheses. -/
theorem semaphore_not_held_during_synthesis :
    (schedRun ⟨[handleClientEvents false false, handleClientEvents false false], 1, 0, 0⟩
      twoClientSchedule).map (fun s => s.maxActive) = some 2 ∧
    SEv.synthStart ∉ handleClientEvents false false ∧
    SEv.synthStart ∈ processVoiceEvents false false ∧
    SEv.acquirePermit ∉ processVoiceEvents false false ∧
    SEv.releasePermit ∉ processVoiceEvents false false ∧
    SEv.acquirePermit ∉ prefetchItemEvents ∧
    SEv.synthStart ∈ prefetchItemEvents := by
  decide

/-- Claim C9 is refuted at the text-list load: the critical section of
`get_text_list`, entered while holding the process-wide lock from the
prefetch paths, contains awaited file I/O when the list is not yet
memoized. -/
theorem lock_held_across_await_counterexample :
    (get_text_list_cs false).any LockAction.isAwait = true := by
  decide

/-- Claim C9 amended: every `is_generating`, `mark_in_progress` and
`mark_completed` call, the config-cache operations, and the text-list
access for an already-loaded list are single in-memory steps with no
awaited I/O under the lock; the one exception is the first load of a
text list, where `get_text_list` awaits file open and reads while the
lock is held (config parsing on a miss also does a blocking, though not
awaited, file read under the config-cache lock). -/
theorem lock_discipline_amended :
    is_generating_cs.all (fun a => !a.isAwait) = true ∧
    mark_in_progress_cs.all (fun a => !a.isAwait) = true ∧
    mark_completed_cs.all (fun a => !a.isAwait) = true ∧
    (load_or_get_config_cs true).all (fun a => !a.isAwait) = true ∧
    (load_or_get_config_cs false).all (fun a => !a.isAwait) = true ∧
    (get_text_list_cs true).all (fun a => !a.isAwait) = true ∧
    (get_text_list_cs false).any LockAction.isAwait = true := by
  decide
